import Mathlib

/-!
# Verification of the Solartron MultiStat `.mdat` extractor

Shallow embedding of `src/mdat-extractor.py`: a batch converter that opens
`.mdat` (ZIP) archives, decodes `.z`/`.Z` members as Latin-1 text, locates the
`End Header:` marker, reads the whitespace-delimited data block with
`pandas.read_csv`, extracts and renames three target columns, coerces them to
numbers, drops incomplete rows, and writes a CSV and a TSV artifact.

Python string primitives (`str.strip`, `re.split(r'\s+', ...)`, `str.split()`,
substring containment) are modelled character-by-character over `List Char`.
Only the ASCII whitespace characters a Solartron instrument file can contain
are modelled (space, tab, CR, LF, vertical tab, form feed); Unicode whitespace
classes are out of scope.  `pandas` behaviour is modelled from its documented
semantics; each modelling choice is recorded in the doc comment of the
corresponding definition.
-/

namespace Mdat

/-- The whitespace characters recognised by Python's `str.strip()`, `str.split()`
and the regex class `\s` (restricted to ASCII, which is all that instrument
files contain). -/
def pyWsChar (c : Char) : Bool :=
  c == ' ' || c == '\t' || c == '\n' || c == '\r' ||
    c == Char.ofNat 11 || c == Char.ofNat 12

/-- `str.strip()` on a character list: drop whitespace from both ends. -/
def charsStrip (cs : List Char) : List Char :=
  ((cs.dropWhile pyWsChar).reverse.dropWhile pyWsChar).reverse

/-- Python `str.strip()`. -/
def pyStrip (s : String) : String :=
  String.mk (charsStrip s.data)

/-- Worker for `reSplitWs`: walks the characters, tracking whether the previous
character was whitespace, the current (reversed) token, and the finished
tokens (reversed). -/
def reSplitGo : List Char → Bool → List Char → List String → List String
  | [], _, cur, done => (String.mk cur.reverse :: done).reverse
  | c :: cs, prevWs, cur, done =>
    if pyWsChar c then
      if prevWs then reSplitGo cs true [] done
      else reSplitGo cs true [] (String.mk cur.reverse :: done)
    else reSplitGo cs false (c :: cur) done

/-- Python `re.split(r'\s+', s)`: split `s` at maximal runs of whitespace.
Boundary runs produce empty strings (`re.split(r'\s+', '') = ['']`,
`re.split(r'\s+', ' a') = ['', 'a']`), exactly as in CPython. -/
def reSplitWs (s : String) : List String :=
  reSplitGo s.data false [] []

/-- Python `str.split()` (no separator): the non-empty maximal-run tokens.
This is also how `pandas.read_csv` tokenises a line under `sep=r'\s+'`
(documented as equivalent to `delim_whitespace=True`). -/
def pySplit (s : String) : List String :=
  (reSplitWs s).filter (fun t => !t.isEmpty)

/-- `p` is a prefix of `cs` (character lists). -/
def charsHasPre : List Char → List Char → Bool
  | [], _ => true
  | _ :: _, [] => false
  | p :: ps, c :: cs => p == c && charsHasPre ps cs

/-- `pat` occurs as a contiguous substring of `cs` (Python's `pat in s`). -/
def charsContains : List Char → List Char → Bool
  | [], pat => charsHasPre pat []
  | c :: cs, pat => charsHasPre pat (c :: cs) || charsContains cs pat

/-- Python's substring containment `pat in s`. -/
def strContainsSub (s pat : String) : Bool :=
  charsContains s.data pat.data

/-- The test `if 'End Header:' in line` of `parse_ascii_content` (line 37). -/
def hasEndHeader (line : String) : Bool :=
  strContainsSub line "End Header:"

/-! ## Numeric values

`pandas` stores the table cells as IEEE-754 doubles.  No claim depends on
binary rounding, so finite values are modelled as exact rationals; the special
values NaN, `+inf` and `-inf` — which the claims do mention — are explicit
constructors. -/

/-- A pandas float64 cell value: a finite number (kept exact as a rational,
since no claim depends on binary rounding), an infinity, or NaN (which also
stands for a missing value, as in pandas). -/
inductive PyFloat where
  | num (q : ℚ)
  | inf
  | ninf
  | nan
deriving DecidableEq, Repr

/-- Read a maximal digit run: returns (value, number of digits, rest). -/
def readDigitsGo : List Char → Nat → Nat → Nat × Nat × List Char
  | [], v, n => (v, n, [])
  | c :: cs, v, n =>
    if c.isDigit then readDigitsGo cs (v * 10 + (c.toNat - 48)) (n + 1)
    else (v, n, c :: cs)

/-- The rational value `± mant / 10 ^ fracDigits · 10 ^ e` of a decimal
literal, built with `mkRat` over integer arithmetic only (so that concrete
values reduce inside the kernel). -/
def decimalValue (neg : Bool) (mant : Nat) (fracDigits : Nat) (e : ℤ) : ℚ :=
  let sign : ℤ := if neg then -1 else 1
  match e with
  | Int.ofNat k => mkRat (sign * mant * 10 ^ k) (10 ^ fracDigits)
  | Int.negSucc k => mkRat (sign * mant) (10 ^ fracDigits * 10 ^ (k + 1))

/-- Digits of an exponent after `e`/`E` and an optional sign; must be non-empty
and consume the rest of the token. -/
def expDigits (neg : Bool) (ds : List Char) : Option ℤ :=
  let (v, n, rest) := readDigitsGo ds 0 0
  if n == 0 || !rest.isEmpty then none
  else some (if neg then -(v : ℤ) else (v : ℤ))

/-- The optional exponent suffix of a float literal: empty means exponent 0. -/
def parseExpPart : List Char → Option ℤ
  | [] => some 0
  | c :: cs =>
    if c == 'e' || c == 'E' then
      match cs with
      | '+' :: ds => expDigits false ds
      | '-' :: ds => expDigits true ds
      | ds => expDigits false ds
    else none

/-- A decimal float literal after the optional sign (`digits`,
`digits.digits`, `digits.`, `.digits`, each with an optional exponent), as
accepted by CPython's `float()` and pandas' `floatify`.  (Underscore digit
separators, which `float()` accepts but pandas' parser does not, are not
modelled.) -/
def parseDecimalChars (neg : Bool) (cs : List Char) : Option ℚ :=
  let (ip, ni, r1) := readDigitsGo cs 0 0
  match r1 with
  | '.' :: r2 =>
    let (fp, nf, r3) := readDigitsGo r2 0 0
    if ni == 0 && nf == 0 then none
    else
      match parseExpPart r3 with
      | none => none
      | some e => some (decimalValue neg (ip * 10 ^ nf + fp) nf e)
  | _ =>
    if ni == 0 then none
    else
      match parseExpPart r1 with
      | none => none
      | some e => some (decimalValue neg ip 0 e)

/-- Case-insensitive comparison of a character list with a lowercase pattern. -/
def lowerEqList (cs : List Char) (pat : List Char) : Bool :=
  cs.map Char.toLower == pat

/-- A float token after the optional sign: `inf`/`infinity`/`nan`
(case-insensitive) or a decimal literal; `neg` records a leading `-`. -/
def parseSignedFloat (neg : Bool) (cs : List Char) : Option PyFloat :=
  if lowerEqList cs ['i', 'n', 'f'] ||
      lowerEqList cs ['i', 'n', 'f', 'i', 'n', 'i', 't', 'y'] then
    some (if neg then .ninf else .inf)
  else if lowerEqList cs ['n', 'a', 'n'] then some .nan
  else (parseDecimalChars neg cs).map .num

/-- Float parsing of a whole token (leading/trailing whitespace stripped,
optional sign), as performed by pandas when converting a column to numbers:
`none` means the token is not numeric. -/
def pyFloatOfToken (s : String) : Option PyFloat :=
  match charsStrip s.data with
  | '+' :: rest => parseSignedFloat false rest
  | '-' :: rest => parseSignedFloat true rest
  | rest => parseSignedFloat false rest

/-- The `pandas.read_csv` default NA sentinels that can occur as a
whitespace-delimited token (the documented default `na_values`; the only
member containing whitespace, `#N/A N/A`, can never be a single token and is
omitted; the empty string is included for the missing cells of short rows). -/
def pandasNaTokens : List String :=
  ["", "#N/A", "#NA", "-1.#IND", "-1.#QNAN", "-NaN", "-nan", "1.#IND",
    "1.#QNAN", "<NA>", "N/A", "NA", "NULL", "NaN", "None", "n/a", "nan",
    "null"]

/-- Net numeric value of one cell after `pandas.read_csv` dtype conversion
followed by `pd.to_numeric(..., errors='coerce')` (lines 63-78 of the source):
a missing cell (short row padding) or NA sentinel is NaN, a numeric token
(including `inf`/`-inf` spellings, which pandas parses and does *not* treat as
NA) is its value, and any other token is coerced to NaN. -/
def pyToNumericCell : Option String → PyFloat
  | none => .nan
  | some tok =>
    if pandasNaTokens.contains tok then .nan
    else
      match pyFloatOfToken tok with
      | some v => v
      | none => .nan

/-! ## The `pandas.read_csv` call of `parse_ascii_content` (lines 63-70)

`pd.read_csv(data_io, sep=r'\s+', names=column_names, header=None,
engine='python', on_bad_lines='skip')`, modelled from the documented pandas
semantics:
* explicit `names` containing duplicates are rejected up front with
  `ValueError: Duplicate names are not allowed` (caught by the script's
  generic `except Exception` handler);
* `sep=r'\s+'` tokenises each line like `str.split()` and, with the default
  `skip_blank_lines=True`, drops lines with no tokens;
* if the first (non-blank) data row has more fields than `names`, the leading
  extra columns become an implicit index (`index_col` is not passed); `k`
  below is that implicit-index width, 0 in the ordinary case;
* a *bad line* is a line with **more** fields than expected
  (`names` plus implicit index) — those are skipped under
  `on_bad_lines='skip'`; lines with *fewer* fields are kept and padded with
  missing values (NaN) on the right;
* empty data with explicit `names` produces an empty frame with those columns
  (no `EmptyDataError`), so the script's `except pd.errors.EmptyDataError`
  branch (lines 111-112) is unreachable and has no constructor here. -/

/-- A parsed data frame: the column names and the rows as cell lists aligned
positionally with the columns (`none` = missing cell). -/
structure RawFrame where
  cols : List String
  rows : List (List (Option String))
deriving DecidableEq, Repr

/-- Does the list contain a duplicate entry? -/
def hasDupNames : List String → Bool
  | [] => false
  | x :: xs => xs.contains x || hasDupNames xs

/-- Pad a token list with missing cells up to the column count. -/
def padRow (width : Nat) (ts : List String) : List (Option String) :=
  ts.map some ++ List.replicate (width - ts.length) none

/-- Result of the `read_csv` call: either the duplicate-names `ValueError` or
a frame. -/
inductive ReadCsvResult where
  | dupNames
  | frame (df : RawFrame)
deriving DecidableEq, Repr

/-- The `read_csv` model (see the section comment above for the documented
pandas behaviours it encodes). -/
def readCsvWs (names : List String) (dataLines : List String) : ReadCsvResult :=
  if hasDupNames names then .dupNames
  else
    let nonBlank := dataLines.filter (fun l => !(pySplit l).isEmpty)
    let k :=
      match nonBlank with
      | [] => 0
      | first :: _ => (pySplit first).length - names.length
    .frame ⟨names, nonBlank.filterMap (fun l =>
      let ts := pySplit l
      if names.length + k < ts.length then none
      else some (padRow names.length (ts.drop k)))⟩

/-! ## Locating the table (lines 32-58 of `parse_ascii_content`) -/

/-- Why a member is skipped before the data block is ever read. -/
inductive SkipReason where
  | noEndHeader
  | headerTooShort
  | noDataAfterMarker
deriving DecidableEq, Repr

/-- Outcome of locating the header and data block in the member's lines. -/
inductive LocateResult where
  | skip (r : SkipReason)
  | ok (columnNames : List String) (dataLines : List String)
deriving DecidableEq, Repr

/-- Lines 32-58 of the source: split into lines (modelled as the line list
itself), find the first line containing `End Header:`; the header line is two
lines above it (`header_line_index < 0` → skip), the data block starts on the
line after it (no such line → skip).  The column names are
`re.split(r'\s+', header_line.strip())`. -/
def locateTable (lines : List String) : LocateResult :=
  match lines.findIdx? hasEndHeader with
  | none => .skip .noEndHeader
  | some i =>
    if i < 2 then .skip .headerTooShort
    else
      let columnNames := reSplitWs (pyStrip (lines.getD (i - 2) ""))
      if lines.length ≤ i + 1 then .skip .noDataAfterMarker
      else .ok columnNames (lines.drop (i + 1))

/-! ## Column extraction (lines 72-97) -/

/-- A single apostrophe, as a string. -/
def apostr : String := String.mk [Char.ofNat 39]

/-- Original name of the frequency column. -/
def freqColName : String := "Freq(Hz)"

/-- Original name of the real-impedance column (with one apostrophe). -/
def zRealColName : String := "Z" ++ apostr ++ "(a)"

/-- Original name of the imaginary-impedance column (with two apostrophes). -/
def zImagColName : String := "Z" ++ apostr ++ apostr ++ "(b)"

/-- `TARGET_COLUMNS_MAP` (lines 18-22 of the source), in dict insertion
order: original column name → renamed output column name. -/
def TARGET_COLUMNS_MAP : List (String × String) :=
  [(freqColName, "frequency (Hz)"),
   (zRealColName, "Z_real (Ohm)"),
   (zImagColName, "Z_imag (Ohm)")]

/-- The extracted table: renamed headers and the numeric rows (aligned
positionally with the headers). -/
structure ExtractedTable where
  headers : List String
  rows : List (List PyFloat)
deriving DecidableEq, Repr

/-- The target-map entries whose original column is present in the frame
(`if original_name in df.columns`, line 77). -/
def presentTargets (df : RawFrame) : List (String × String) :=
  TARGET_COLUMNS_MAP.filter (fun p => df.cols.contains p.1)

/-- The raw cell of row `r` in the column called `name`. -/
def cellOfRow (df : RawFrame) (r : List (Option String)) (name : String) :
    Option String :=
  r.getD (df.cols.findIdx (fun c => c == name)) none

/-- Does a row have no NaN cell?  (`dropna()` keeps exactly these rows; note
that infinities are *not* NaN and are kept.) -/
def rowComplete (row : List PyFloat) : Bool :=
  row.all (fun v => !(v == PyFloat.nan))

/-- Lines 72-94: for each target-map entry present in the frame, coerce the
column with `pd.to_numeric(..., errors='coerce')` into a column of the
extracted frame (named by the renamed name, in map order — `.abs()` was
removed in v6 and no transform is applied), then `dropna()` the rows.
Column-wise construction plus `dropna` equals this row-wise map-and-filter
because all columns share the frame's row index. -/
def extractTable (df : RawFrame) : ExtractedTable :=
  let ps := presentTargets df
  { headers := ps.map (fun p => p.2),
    rows := (df.rows.map (fun r =>
      ps.map (fun p => pyToNumericCell (cellOfRow df r p.1)))).filter
        rowComplete }

/-- `extracted_df.empty` (line 95): a frame with no columns or no rows is
empty. -/
def ExtractedTable.isEmptyTable (t : ExtractedTable) : Bool :=
  t.headers.isEmpty || t.rows.isEmpty

/-! ## Output rendering and the file system (lines 99-110)

`DataFrame.to_csv(path, index=False, encoding='utf-8')` and the same with
`sep='\t'`: a header line of the column names joined by the separator, then
one line per row in frame order, each cell rendered by the same float
`repr`.  The digit strings of Python's shortest-round-trip float `repr` are
not modelled; `renderFloat` below is a fixed injective stand-in sharing the
properties the claims rely on: the same function renders both artifacts, NaN
renders as the empty string, and no rendered cell contains a delimiter
character (so no `to_csv` quoting is triggered). -/

/-- The character of a single decimal digit. -/
def digitChar (n : Nat) : Char := Char.ofNat (48 + n)

/-- Digits of a natural number, most significant first (`fuel`-driven so that
the kernel can evaluate it; `fuel = n + 1` always suffices). -/
def natDigitsGo : Nat → Nat → List Char → List Char
  | 0, _, acc => acc
  | fuel + 1, n, acc =>
    if n < 10 then digitChar n :: acc
    else natDigitsGo fuel (n / 10) (digitChar (n % 10) :: acc)

/-- Decimal rendering of a natural number. -/
def natRender (n : Nat) : String := String.mk (natDigitsGo (n + 1) n [])

/-- Rendering of a finite rational value (exact; see the section comment). -/
def ratRender (q : ℚ) : String :=
  (if q.num < 0 then "-" else "") ++ natRender q.num.natAbs ++
    (if q.den == 1 then "" else "/" ++ natRender q.den)

/-- Rendering of one cell: pandas writes NaN as an empty field and the
infinities as `inf`/`-inf`. -/
def renderFloat : PyFloat → String
  | .num q => ratRender q
  | .inf => "inf"
  | .ninf => "-inf"
  | .nan => ""

/-- The cell matrix of an artifact: the header row, then the rendered data
rows in table order.  It does not depend on the delimiter. -/
def cellMatrix (t : ExtractedTable) : List (List String) :=
  t.headers :: t.rows.map (fun r => r.map renderFloat)

/-- The lines of a `to_csv` artifact with the given separator. -/
def toCsvLines (sep : String) (t : ExtractedTable) : List String :=
  (cellMatrix t).map (fun cells => String.intercalate sep cells)

/-- The full text of a `to_csv` artifact. -/
def renderArtifact (sep : String) (t : ExtractedTable) : String :=
  String.intercalate "\n" (toCsvLines sep t) ++ "\n"

/-- The output directory as a map from path to file content; a new write
shadows an older one (overwrite-without-merging). -/
abbrev FS := List (String × String)

/-- Write (create or overwrite) a file. -/
def setFile (fs : FS) (p c : String) : FS := (p, c) :: fs

/-- Content of the file at `p`, if present. -/
def lookupFile (fs : FS) (p : String) : Option String :=
  (fs.find? (fun e => e.1 == p)).map (fun e => e.2)

/-- `os.path.join` for the relative member paths this script builds. -/
def joinPath (dir name : String) : String :=
  if dir.isEmpty then name
  else if dir.data.getLast? == some '/' then dir ++ name
  else dir ++ "/" ++ name

/-- `os.path.join(output_dir, f"{output_base_name}_extracted.csv")` (line 100). -/
def csvPathOf (dir base : String) : String :=
  joinPath dir (base ++ "_extracted.csv")

/-- `os.path.join(output_dir, f"{output_base_name}_extracted.txt")` (line 101). -/
def txtPathOf (dir base : String) : String :=
  joinPath dir (base ++ "_extracted.txt")

/-! ## `parse_ascii_content` end to end -/

/-- Outcome of `parse_ascii_content` for one member; each constructor
corresponds to one diagnostic print of the source. -/
inductive ParseResult where
  /-- Line 42: `End Header:` not found. -/
  | skipNoEndHeader
  /-- Line 48: header index would be negative. -/
  | skipHeaderTooShort
  /-- Line 57: no line after the marker. -/
  | skipNoDataAfterMarker
  /-- Line 96: columns extracted but no valid numeric data. -/
  | skipNoValidRows
  /-- Lines 113-114: generic `except Exception` (e.g. pandas' duplicate-names
  `ValueError`). -/
  | failParseError
  /-- Lines 108-110: `except PermissionError` while writing. -/
  | failPermission
  /-- Line 106: success, both artifacts written. -/
  | written (t : ExtractedTable)
deriving DecidableEq, Repr

/-- The skip result of a pre-data-block failure. -/
def skipResultOf : SkipReason → ParseResult
  | .noEndHeader => .skipNoEndHeader
  | .headerTooShort => .skipHeaderTooShort
  | .noDataAfterMarker => .skipNoDataAfterMarker

/-- Lines 100-110: write the CSV artifact, then the TSV artifact.  `env p =
true` means opening `p` for writing raises `PermissionError` (file locked by
another program); the exception is caught at lines 108-110, after any write
that already happened. -/
def writeStage (env : String → Bool) (fs : FS) (dir base : String)
    (t : ExtractedTable) : ParseResult × FS :=
  if env (csvPathOf dir base) then (.failPermission, fs)
  else if env (txtPathOf dir base) then
    (.failPermission, setFile fs (csvPathOf dir base) (renderArtifact "," t))
  else
    (.written t,
      setFile (setFile fs (csvPathOf dir base) (renderArtifact "," t))
        (txtPathOf dir base) (renderArtifact "\t" t))

/-- Lines 60-110: everything after the data block has been located — the
`read_csv` call, column extraction, the emptiness check, and the writes. -/
def tableStage (env : String → Bool) (fs : FS) (dir base : String)
    (columnNames dataLines : List String) : ParseResult × FS :=
  match readCsvWs columnNames dataLines with
  | .dupNames => (.failParseError, fs)
  | .frame df =>
    if (extractTable df).isEmptyTable then (.skipNoValidRows, fs)
    else writeStage env fs dir base (extractTable df)

/-- `parse_ascii_content(file_content, output_base_name, output_dir)`
(lines 26-114), over the member's decoded lines.  Total: every failure of the
body is caught by one of the source's `except` clauses and becomes a
constructor of `ParseResult`. -/
def parse_ascii_content (env : String → Bool) (fs : FS) (lines : List String)
    (base dir : String) : ParseResult × FS :=
  match locateTable lines with
  | .skip r => (skipResultOf r, fs)
  | .ok columnNames dataLines => tableStage env fs dir base columnNames dataLines

/-! ## Output base-name derivation (lines 122-126 and 159-171) -/

/-- Index of the last occurrence of `c` in `cs`, if any. -/
def lastIdxOf (c : Char) (cs : List Char) : Option Nat :=
  (cs.reverse.findIdx? (fun x => x == c)).map (fun k => cs.length - 1 - k)

/-- `os.path.splitext(p)[0]` (POSIX): cut at the last dot, unless that dot
lies in the leading run of dots of the final path component (so `.z` and
`..z` keep their dot). -/
def splitextStem (s : String) : String :=
  let cs := s.data
  let fnStart :=
    match lastIdxOf '/' cs with
    | none => 0
    | some n => n + 1
  match lastIdxOf '.' cs with
  | none => s
  | some d =>
    if fnStart ≤ d &&
        (List.range d).any (fun j => fnStart ≤ j && !(cs.getD j '.' == '.')) then
      String.mk (cs.take d)
    else s

/-- `os.path.basename` (POSIX): the part after the last `/`. -/
def baseNameOf (s : String) : String :=
  match lastIdxOf '/' s.data with
  | none => s
  | some n => String.mk (s.data.drop (n + 1))

/-- `sub_file_name.replace('/', '_')` (line 170). -/
def replaceSlashes (s : String) : String :=
  String.mk (s.data.map (fun c => if c == '/' then '_' else c))

/-- Try to match the regex `Run(\d+)` (with `re.IGNORECASE`) at the start of
`cs`: case-insensitive `Run` followed by a maximal non-empty digit run; the
returned characters are the matched text (`group(0)`), original case kept. -/
def matchRunAt : List Char → Option (List Char)
  | r :: u :: n :: rest =>
    if r.toLower == 'r' && u.toLower == 'u' && n.toLower == 'n' then
      let ds := rest.takeWhile Char.isDigit
      if ds.isEmpty then none else some (r :: u :: n :: ds)
    else none
  | _ => none

/-- Leftmost match: try each start position left to right. -/
def searchRunGo : List Char → Option (List Char)
  | [] => none
  | c :: cs =>
    match matchRunAt (c :: cs) with
    | some m => some m
    | none => searchRunGo cs

/-- `re.search(r'Run(\d+)', sub_file_name, re.IGNORECASE)` with `.group(0)`
(lines 161-164): the leftmost `Run`+digits match, if any. -/
def searchRun (s : String) : Option String :=
  (searchRunGo s.data).map String.mk

/-- What a matched `RunNN` token looks like: case-insensitive `Run` followed
by a non-empty digit run. -/
def runTokenShape (tok : List Char) : Prop :=
  ∃ r u n ds, tok = r :: u :: n :: ds ∧ r.toLower = 'r' ∧ u.toLower = 'u' ∧
    n.toLower = 'n' ∧ ds ≠ [] ∧ ∀ c ∈ ds, c.isDigit = true

/-- Lines 159-171: the output base name of a member — archive base, hyphen
and the matched `RunNN` text when the pattern matches, otherwise the member
path with `/` replaced by `_` and the final extension stripped. -/
def deriveOutputBase (mdatBase memberName : String) : String :=
  match searchRun memberName with
  | some runStr => mdatBase ++ "-" ++ runStr
  | none => splitextStem (replaceSlashes memberName)

/-! ## Batch orchestration (`process_mdat_file`, lines 118-179, and the
`main` loop, lines 213-214)

A member's raw bytes are decoded with Latin-1 (line 151), which succeeds for
every byte sequence, so a member is modelled by its decoded line list; the
UTF-8 fallback and the decode-failure `continue` (lines 152-157) are
unreachable for Latin-1 and have no separate constructor.  Every other
failure of `process_mdat_file`'s body is caught by one of its `except`
clauses (lines 176-179), so the model is a total function into a report
type. -/

/-- One member of an archive: its internal path and its decoded text lines. -/
structure ZEntry where
  name : String
  textLines : List String
deriving DecidableEq, Repr

/-- One input archive: not a ZIP at all (`is_zipfile` false, line 129), a
ZIP that raises `BadZipFile` on reading (line 176), or a readable ZIP with
its member list. -/
inductive ArchiveInput where
  | notZip
  | corrupt
  | zipOk (entries : List ZEntry)
deriving DecidableEq, Repr

/-- The per-archive report printed by `process_mdat_file`. -/
inductive ArchiveReport where
  /-- Line 130: skipped, not a valid ZIP. -/
  | skippedNotZip
  /-- Line 177: failed, corrupt ZIP. -/
  | failedBadZip
  /-- Line 138: no `.z`/`.Z` members. -/
  | noAcMembers
  /-- One `parse_ascii_content` outcome per AC member, in member order. -/
  | processed (memberResults : List ParseResult)
deriving DecidableEq, Repr

/-- `f.lower().endswith('.z')` (line 135). -/
def isAcFileName (s : String) : Bool :=
  match s.data.reverse with
  | c1 :: c2 :: _ => c1.toLower == 'z' && c2 == '.'
  | _ => false

/-- The member loop of lines 143-174: process the AC members in order,
threading the output directory state. -/
def processMembers (env : String → Bool) (outDir mdatBase : String) :
    List ZEntry → FS → List ParseResult × FS
  | [], fs => ([], fs)
  | e :: es, fs =>
    let pr := parse_ascii_content env fs e.textLines
      (deriveOutputBase mdatBase e.name) outDir
    let rest := processMembers env outDir mdatBase es pr.2
    (pr.1 :: rest.1, rest.2)

/-- `process_mdat_file(file_path, output_dir)` (lines 118-179). -/
def process_mdat_file (env : String → Bool) (outDir path : String)
    (a : ArchiveInput) (fs : FS) : ArchiveReport × FS :=
  let mdatBase := splitextStem (baseNameOf path)
  match a with
  | .notZip => (.skippedNotZip, fs)
  | .corrupt => (.failedBadZip, fs)
  | .zipOk entries =>
    let acs := entries.filter (fun e => isAcFileName e.name)
    if acs.isEmpty then (.noAcMembers, fs)
    else
      let res := processMembers env outDir mdatBase acs fs
      (.processed res.1, res.2)

/-- The archive loop of `main` (lines 213-214): process each discovered
archive in order, threading the output directory state. -/
def runBatch (env : String → Bool) (outDir : String) :
    List (String × ArchiveInput) → FS → List ArchiveReport × FS
  | [], fs => ([], fs)
  | a :: rest, fs =>
    let pr := process_mdat_file env outDir a.1 a.2 fs
    let rs := runBatch env outDir rest pr.2
    (pr.1 :: rs.1, rs.2)

/-- The report a single member yields, as a function of that member alone
(and the fixed configuration). -/
def memberReport (env : String → Bool) (outDir mdatBase : String)
    (e : ZEntry) : ParseResult :=
  (parse_ascii_content env [] e.textLines
    (deriveOutputBase mdatBase e.name) outDir).1

/-- The report a single archive yields, as a function of that archive alone
(and the fixed configuration). -/
def archiveReport (env : String → Bool) (outDir : String)
    (pa : String × ArchiveInput) : ArchiveReport :=
  match pa.2 with
  | .notZip => .skippedNotZip
  | .corrupt => .failedBadZip
  | .zipOk entries =>
    let acs := entries.filter (fun e => isAcFileName e.name)
    if acs.isEmpty then .noAcMembers
    else .processed (acs.map
      (memberReport env outDir (splitextStem (baseNameOf pa.1))))

end Mdat


namespace Mdat

/-! # Theorems -/

/-- C1: for every decoded member text with the literal marker `End Header:`
first occurring at line index `i`, `i ≥ 2`, and at least one line after index
`i`, the parser produces the column-name list equal to the whitespace-split
tokens of line `i - 2` (after stripping surrounding whitespace) and hands
exactly the lines from index `i + 1` onward to the data-row parsing stage. -/
theorem claim_C1 (env : String → Bool) (fs : FS) (lines : List String)
    (base dir : String) (i : Nat)
    (hfind : lines.findIdx? hasEndHeader = some i) (h2 : 2 ≤ i)
    (h3 : i + 1 < lines.length) :
    locateTable lines =
      .ok (reSplitWs (pyStrip (lines.getD (i - 2) ""))) (lines.drop (i + 1)) ∧
    parse_ascii_content env fs lines base dir =
      tableStage env fs dir base (reSplitWs (pyStrip (lines.getD (i - 2) "")))
        (lines.drop (i + 1)) := by
  have hlt : ¬ i < 2 := Nat.not_lt.mpr h2
  have hle : ¬ lines.length ≤ i + 1 := Nat.not_le.mpr h3
  have hloc : locateTable lines =
      .ok (reSplitWs (pyStrip (lines.getD (i - 2) ""))) (lines.drop (i + 1)) := by
    unfold locateTable
    rw [hfind]
    simp [hlt, hle]
  refine ⟨hloc, ?_⟩
  unfold parse_ascii_content
  rw [hloc]

/-- Witness for C1 at a four-line member with the marker at index 2. -/
theorem claim_C1_witness :
    locateTable ["h", "u", "End Header:", "1 2"] =
      .ok (reSplitWs (pyStrip ((["h", "u", "End Header:", "1 2"] :
        List String).getD 0 "")))
        ((["h", "u", "End Header:", "1 2"] : List String).drop 3) ∧
    parse_ascii_content (fun _ => false) [] ["h", "u", "End Header:", "1 2"]
        "b" "o" =
      tableStage (fun _ => false) [] "o" "b"
        (reSplitWs (pyStrip ((["h", "u", "End Header:", "1 2"] :
          List String).getD 0 "")))
        ((["h", "u", "End Header:", "1 2"] : List String).drop 3) :=
  claim_C1 (fun _ => false) [] ["h", "u", "End Header:", "1 2"] "b" "o" 2
    (by decide) (by decide) (by decide)

/-- C2: for every decoded member text in which the marker is absent, or first
occurs at index `i < 2`, or has no line after it, the parser yields a skip
with a recorded reason, writes nothing, and (being a total function built
from the source's `except` clauses) raises nothing. -/
theorem claim_C2 (env : String → Bool) (fs : FS) (lines : List String)
    (base dir : String)
    (h : lines.findIdx? hasEndHeader = none ∨
      ∃ i, lines.findIdx? hasEndHeader = some i ∧
        (i < 2 ∨ lines.length ≤ i + 1)) :
    ∃ r : SkipReason,
      parse_ascii_content env fs lines base dir = (skipResultOf r, fs) ∧
      ∀ t, skipResultOf r ≠ ParseResult.written t := by
  rcases h with hnone | ⟨i, hi, hcase⟩
  · have hloc : locateTable lines = .skip .noEndHeader := by
      unfold locateTable; rw [hnone]
    exact ⟨.noEndHeader, by unfold parse_ascii_content; rw [hloc],
      by simp [skipResultOf]⟩
  · by_cases h2 : i < 2
    · have hloc : locateTable lines = .skip .headerTooShort := by
        unfold locateTable; rw [hi]; simp [h2]
      exact ⟨.headerTooShort, by unfold parse_ascii_content; rw [hloc],
        by simp [skipResultOf]⟩
    · have hle : lines.length ≤ i + 1 := by
        rcases hcase with h' | h'
        · exact absurd h' h2
        · exact h'
      have hloc : locateTable lines = .skip .noDataAfterMarker := by
        unfold locateTable; rw [hi]; simp [h2, hle]
      exact ⟨.noDataAfterMarker, by unfold parse_ascii_content; rw [hloc],
        by simp [skipResultOf]⟩

/-- Witness for C2 at a member with no marker line. -/
theorem claim_C2_witness :
    ∃ r : SkipReason,
      parse_ascii_content (fun _ => false) [] ["no marker", "1 2"] "b" "o" =
        (skipResultOf r, []) ∧
      ∀ t, skipResultOf r ≠ ParseResult.written t :=
  claim_C2 (fun _ => false) [] ["no marker", "1 2"] "b" "o"
    (Or.inl (by decide))

/-- C4: sign preservation end to end — a member whose imaginary-impedance
token is `-1.23e-4` yields a written table whose `Z_imag` cell is exactly the
negative rational `-1.23·10⁻⁴`, not its absolute value. -/
theorem claim_C4 :
    (parse_ascii_content (fun _ => false) []
      ["meta",
       freqColName ++ "  " ++ zRealColName ++ " " ++ zImagColName,
       "units", "End Header:", "100 50.0 -1.23e-4"] "b" "out").1 =
      .written ⟨["frequency (Hz)", "Z_real (Ohm)", "Z_imag (Ohm)"],
        [[.num 100, .num 50, .num (mkRat (-123) 1000000)]]⟩ ∧
    (mkRat (-123) 1000000 : ℚ) = -(123 / 1000000) ∧
    (mkRat (-123) 1000000 : ℚ) < 0 := by
  refine ⟨by decide, ?_, ?_⟩
  · rw [Rat.mkRat_eq_div]
    norm_num
  · rw [Rat.mkRat_eq_div]
    norm_num

/-- C6 counterexample: against a four-name header, the data line `5 6 7` has
only three tokens, yet it is *not* skipped — pandas pads it with a missing
cell, and since the missing cell falls in the non-target fourth column the
line contributes a full output row `[5, 6, 7]`. -/
theorem claim_C6_counterexample :
    (pySplit "5 6 7").length = 3 ∧
    (reSplitWs (pyStrip
      (freqColName ++ " " ++ zRealColName ++ " " ++ zImagColName ++
        " Extra"))).length = 4 ∧
    (parse_ascii_content (fun _ => false) []
      ["meta",
       freqColName ++ " " ++ zRealColName ++ " " ++ zImagColName ++ " Extra",
       "units", "End Header:", "1 2 3 4", "5 6 7"] "b" "o").1 =
      .written ⟨["frequency (Hz)", "Z_real (Ohm)", "Z_imag (Ohm)"],
        [[.num 1, .num 2, .num 3], [.num 5, .num 6, .num 7]]⟩ := by decide

/-- C6 (amended): when the column names are distinct and the first non-blank
data row is no wider than the column list, the row reader skips exactly the
rows with *more* tokens than columns; rows with *fewer* tokens are kept,
padded on the right with missing cells (and can contribute partial rows);
and if no rows result at all the member is skipped. -/
theorem claim_C6 (names : List String) (dls : List String)
    (hnd : hasDupNames names = false)
    (hreg : ((dls.filter (fun l => !(pySplit l).isEmpty)).head?.all
      (fun first => decide ((pySplit first).length ≤ names.length))) = true) :
    readCsvWs names dls = .frame ⟨names,
      (dls.filter (fun l => !(pySplit l).isEmpty)).filterMap (fun l =>
        if names.length < (pySplit l).length then none
        else some (padRow names.length (pySplit l)))⟩ ∧
    ∀ env fs dir base df, readCsvWs names dls = .frame df → df.rows = [] →
      tableStage env fs dir base names dls = (.skipNoValidRows, fs) := by
  constructor
  · cases hnb : dls.filter (fun l => !(pySplit l).isEmpty) with
    | nil => simp [readCsvWs, hnd, hnb]
    | cons first rest =>
      have hle : (pySplit first).length ≤ names.length := by
        rw [hnb] at hreg
        simpa using hreg
      have h0 : (pySplit first).length - names.length = 0 :=
        Nat.sub_eq_zero_of_le hle
      simp [readCsvWs, hnd, hnb, h0]
  · intro env fs dir base df hdf hrows
    unfold tableStage
    rw [hdf]
    simp [extractTable, ExtractedTable.isEmptyTable, hrows]

/-- Witness for C6: two in-regime column names, one over-long row skipped and
one short row padded. -/
theorem claim_C6_witness :
    readCsvWs ["a", "b"] ["1 2", "1 2 3", "4"] = .frame ⟨["a", "b"],
      ((["1 2", "1 2 3", "4"] : List String).filter
        (fun l => !(pySplit l).isEmpty)).filterMap (fun l =>
        if (["a", "b"] : List String).length < (pySplit l).length then none
        else some (padRow (["a", "b"] : List String).length (pySplit l)))⟩ ∧
    ∀ env fs dir base df, readCsvWs ["a", "b"] ["1 2", "1 2 3", "4"] =
        .frame df → df.rows = [] →
      tableStage env fs dir base ["a", "b"] ["1 2", "1 2 3", "4"] =
        (.skipNoValidRows, fs) :=
  claim_C6 ["a", "b"] ["1 2", "1 2 3", "4"] (by decide) (by decide)

/-- C7 counterexample: a member whose header line is `A A` (duplicate column
names).  The parse does *not* produce a table with the later duplicate
overwriting the earlier one — pandas rejects duplicate explicit names with a
`ValueError`, the generic handler catches it, and the member fails with a
parse-error diagnostic. -/
theorem claim_C7_counterexample :
    hasDupNames (reSplitWs (pyStrip "A A")) = true ∧
    (parse_ascii_content (fun _ => false) []
      ["x", "A A", "u", "End Header:", "1 2"] "b" "o").1 =
      .failParseError := by decide

/-- C7 (amended): whenever the tokenized header line contains duplicate
column names, `read_csv` raises the duplicate-names `ValueError`, the generic
`except Exception` handler catches it, and the member yields a parse-error
result with nothing written — no Parsed Table results. -/
theorem claim_C7 (env : String → Bool) (fs : FS) (lines : List String)
    (base dir : String) (cns dls : List String)
    (hloc : locateTable lines = .ok cns dls)
    (hdup : hasDupNames cns = true) :
    parse_ascii_content env fs lines base dir = (.failParseError, fs) := by
  unfold parse_ascii_content
  rw [hloc]
  have hr : readCsvWs cns dls = .dupNames := by
    unfold readCsvWs
    simp [hdup]
  simp [tableStage, hr]

/-- Witness for C7 at the duplicate-header member. -/
theorem claim_C7_witness :
    parse_ascii_content (fun _ => false) []
      ["x", "A A", "u", "End Header:", "1 2"] "b" "o" =
      (.failParseError, []) :=
  claim_C7 (fun _ => false) [] ["x", "A A", "u", "End Header:", "1 2"]
    "b" "o" ["A", "A"] ["1 2"] (by decide) (by decide)

/-- Inversion of a successful parse: a written table can only come from the
success branch, so the located columns, the frame, the emptiness check, the
two write-permission checks and the final directory state are all
determined. -/
theorem parse_written_inv (env : String → Bool) (fs : FS)
    (lines : List String) (base dir : String) (t : ExtractedTable)
    (fs' : FS)
    (h : parse_ascii_content env fs lines base dir = (.written t, fs')) :
    ∃ cns dls df, locateTable lines = .ok cns dls ∧
      readCsvWs cns dls = .frame df ∧ t = extractTable df ∧
      t.isEmptyTable = false ∧
      env (csvPathOf dir base) = false ∧
      env (txtPathOf dir base) = false ∧
      fs' = setFile (setFile fs (csvPathOf dir base) (renderArtifact "," t))
        (txtPathOf dir base) (renderArtifact "\t" t) := by
  unfold parse_ascii_content at h
  split at h
  · rename_i r heq
    cases r <;> simp [skipResultOf] at h
  · rename_i cns dls heq
    unfold tableStage at h
    split at h
    · simp at h
    · rename_i df hr
      split at h
      · simp at h
      · rename_i he
        rw [Bool.not_eq_true] at he
        unfold writeStage at h
        split at h
        · simp at h
        · rename_i hc
          rw [Bool.not_eq_true] at hc
          split at h
          · simp at h
          · rename_i ht2
            rw [Bool.not_eq_true] at ht2
            simp only [Prod.mk.injEq, ParseResult.written.injEq] at h
            obtain ⟨h1, h2⟩ := h
            refine ⟨cns, dls, df, heq, hr, h1.symm, ?_, hc, ht2, ?_⟩
            · rw [h1] at he
              exact he
            · rw [← h1]
              exact h2.symm

/-- C3 counterexample: the token `inf` in the frequency column survives to
the written table — `dropna()` removes NaN but not infinities, so a written
row can contain a non-finite value. -/
theorem claim_C3_counterexample :
    (parse_ascii_content (fun _ => false) []
      ["m", freqColName ++ " " ++ zRealColName ++ " " ++ zImagColName,
       "u", "End Header:", "inf 50.0 -20.0"] "b" "o").1 =
      .written ⟨["frequency (Hz)", "Z_real (Ohm)", "Z_imag (Ohm)"],
        [[.inf, .num 50, .num (mkRat (-20) 1)]]⟩ := by decide

/-- C3 (amended): in every written table, every cell of every row is
non-NaN — rows with a missing or non-numeric value in a present target
column are dropped entirely — but the values are not necessarily finite:
infinities pass the filter. -/
theorem claim_C3 (env : String → Bool) (fs : FS) (lines : List String)
    (base dir : String) (t : ExtractedTable) (fs' : FS)
    (h : parse_ascii_content env fs lines base dir = (.written t, fs')) :
    ∀ r ∈ t.rows, ∀ v ∈ r, v ≠ PyFloat.nan := by
  obtain ⟨cns, dls, df, _, _, ht, _, _, _, _⟩ :=
    parse_written_inv env fs lines base dir t fs' h
  subst ht
  intro r hr v hv hveq
  simp only [extractTable] at hr
  have hmem : rowComplete r = true := (List.mem_filter.mp hr).2
  rw [rowComplete, List.all_eq_true] at hmem
  have h2 := hmem v hv
  subst hveq
  simp at h2

/-- Witness for C3 at a member whose table (with an infinity) is written:
the infinity cell of the written row is not NaN. -/
theorem claim_C3_witness : PyFloat.inf ≠ PyFloat.nan :=
  claim_C3 (fun _ => false) []
    ["m", freqColName ++ " " ++ zRealColName ++ " " ++ zImagColName,
     "u", "End Header:", "inf 50.0 -20.0"] "b" "o"
    (ExtractedTable.mk ["frequency (Hz)", "Z_real (Ohm)", "Z_imag (Ohm)"]
      [[PyFloat.inf, PyFloat.num 50, PyFloat.num (mkRat (-20) 1)]])
    [("o/b_extracted.txt",
      "frequency (Hz)\tZ_real (Ohm)\tZ_imag (Ohm)\ninf\t50\t-20\n"),
     ("o/b_extracted.csv",
      "frequency (Hz),Z_real (Ohm),Z_imag (Ohm)\ninf,50,-20\n")]
    (by decide)
    [PyFloat.inf, PyFloat.num 50, PyFloat.num (mkRat (-20) 1)] (by decide)
    PyFloat.inf (by decide)

/-- The decimal digit characters are genuine digits. -/
theorem digitChar_isDigit : ∀ m, m < 10 → (digitChar m).isDigit = true := by
  decide

/-- Every character produced by the digit-accumulator is a digit, provided
the accumulator holds only digits. -/
theorem natDigitsGo_digits (fuel : Nat) : ∀ (n : Nat) (acc : List Char),
    (∀ c ∈ acc, c.isDigit = true) →
    ∀ c ∈ natDigitsGo fuel n acc, c.isDigit = true := by
  induction fuel with
  | zero =>
    intro n acc hacc c hc
    exact hacc c hc
  | succ f ih =>
    intro n acc hacc c hc
    rw [natDigitsGo] at hc
    by_cases h : n < 10
    · rw [if_pos h] at hc
      rcases List.mem_cons.mp hc with hc1 | hc2
      · subst hc1
        exact digitChar_isDigit n h
      · exact hacc c hc2
    · rw [if_neg h] at hc
      refine ih (n / 10) (digitChar (n % 10) :: acc) ?_ c hc
      intro c2 hc2
      rcases List.mem_cons.mp hc2 with h1 | h2
      · subst h1
        exact digitChar_isDigit (n % 10) (Nat.mod_lt n (by decide))
      · exact hacc c2 h2

/-- The decimal rendering of a natural number consists of digits only. -/
theorem natRender_digits (n : Nat) :
    ∀ c ∈ (natRender n).data, c.isDigit = true := by
  intro c hc
  refine natDigitsGo_digits (n + 1) n [] ?_ c hc
  intro c2 hc2
  exact absurd hc2 (List.not_mem_nil c2)

/-- No rendered cell value contains a comma or a tab, so neither delimiter
can be confused with cell content (and `to_csv` quoting is never
triggered). -/
theorem renderFloat_no_delim (v : PyFloat) :
    ∀ c ∈ (renderFloat v).data, c ≠ ',' ∧ c ≠ '\t' := by
  have hdig : ∀ c : Char, c.isDigit = true → c ≠ ',' ∧ c ≠ '\t' := by
    intro c h
    constructor
    · intro he
      subst he
      exact absurd h (by decide)
    · intro he
      subst he
      exact absurd h (by decide)
  cases v with
  | num q =>
    intro c hc
    simp only [renderFloat, ratRender, String.data_append,
      List.mem_append] at hc
    rcases hc with (hc | hc) | hc
    · by_cases hs : q.num < 0
      · rw [if_pos hs] at hc
        exact (by decide :
          ∀ x ∈ ("-" : String).data, x ≠ ',' ∧ x ≠ '\t') c hc
      · rw [if_neg hs] at hc
        exact (by decide :
          ∀ x ∈ ("" : String).data, x ≠ ',' ∧ x ≠ '\t') c hc
    · exact hdig c (natRender_digits q.num.natAbs c hc)
    · by_cases hd : (q.den == 1) = true
      · rw [if_pos hd] at hc
        exact (by decide :
          ∀ x ∈ ("" : String).data, x ≠ ',' ∧ x ≠ '\t') c hc
      · rw [if_neg hd] at hc
        rw [String.data_append] at hc
        rcases List.mem_append.mp hc with hc1 | hc2
        · exact (by decide :
            ∀ x ∈ ("/" : String).data, x ≠ ',' ∧ x ≠ '\t') c hc1
        · exact hdig c (natRender_digits q.den c hc2)
  | inf =>
    intro c hc
    simp only [renderFloat] at hc
    exact (by decide : ∀ x ∈ ("inf" : String).data, x ≠ ',' ∧ x ≠ '\t') c hc
  | ninf =>
    intro c hc
    simp only [renderFloat] at hc
    exact (by decide : ∀ x ∈ ("-inf" : String).data, x ≠ ',' ∧ x ≠ '\t') c hc
  | nan =>
    intro c hc
    simp only [renderFloat] at hc
    exact (by decide : ∀ x ∈ ("" : String).data, x ≠ ',' ∧ x ≠ '\t') c hc

/-- An extracted table's headers are among the three renamed target names. -/
theorem extract_headers_sub (df : RawFrame) :
    ∀ hname ∈ (extractTable df).headers,
      hname ∈ (["frequency (Hz)", "Z_real (Ohm)", "Z_imag (Ohm)"] :
        List String) := by
  intro hname hmem
  simp only [extractTable] at hmem
  rcases List.mem_map.mp hmem with ⟨p, hp, hpe⟩
  have hp2 : p ∈ TARGET_COLUMNS_MAP ∧ p.1 ∈ df.cols := by
    simpa [presentTargets, List.mem_filter] using hp
  subst hpe
  exact (by decide : ∀ q ∈ TARGET_COLUMNS_MAP,
    q.2 ∈ (["frequency (Hz)", "Z_real (Ohm)", "Z_imag (Ohm)"] :
      List String)) p hp2.1

/-- Appending on the left is cancellative for strings. -/
theorem strAppend_cancel (a b c : String) (h : a ++ b = a ++ c) : b = c := by
  have hd := congrArg String.data h
  rw [String.data_append, String.data_append] at hd
  exact String.ext (List.append_cancel_left hd)

/-- The two artifact names differ (same base, different extension). -/
theorem baseSuffix_ne (b : String) :
    b ++ "_extracted.csv" ≠ b ++ "_extracted.txt" := by
  intro h
  have h2 := congrArg String.data (strAppend_cancel b _ _ h)
  exact absurd h2 (by decide)

/-- The CSV artifact path and the TSV artifact path never coincide. -/
theorem csvPath_ne_txtPath (dir base : String) :
    csvPathOf dir base ≠ txtPathOf dir base := by
  unfold csvPathOf txtPathOf joinPath
  by_cases h1 : dir.isEmpty = true
  · simp only [h1, if_true]
    exact baseSuffix_ne base
  · by_cases h2 : (dir.data.getLast? == some '/') = true
    · simp only [h1, h2, if_true, if_false, Bool.false_eq_true]
      intro h
      exact baseSuffix_ne base (strAppend_cancel dir _ _ h)
    · simp only [h1, h2, if_true, if_false, Bool.false_eq_true]
      intro h
      exact baseSuffix_ne base (strAppend_cancel (dir ++ "/") _ _ h)

/-- C8: for every written table, the comma and tab artifacts are the two
intercalations of one and the same cell matrix — the renamed headers
followed by the rendered rows in insertion order (no reordering) — every
cell is free of both delimiter characters, and the two files on disk hold
exactly these renderings. -/
theorem claim_C8 (env : String → Bool) (fs : FS) (lines : List String)
    (base dir : String) (t : ExtractedTable) (fs' : FS)
    (h : parse_ascii_content env fs lines base dir = (.written t, fs')) :
    toCsvLines "," t = (cellMatrix t).map (String.intercalate ",") ∧
    toCsvLines "\t" t = (cellMatrix t).map (String.intercalate "\t") ∧
    cellMatrix t = t.headers :: t.rows.map (fun r => r.map renderFloat) ∧
    (∀ rowCells ∈ cellMatrix t, ∀ cell ∈ rowCells, ∀ c ∈ cell.data,
      c ≠ ',' ∧ c ≠ '\t') ∧
    lookupFile fs' (csvPathOf dir base) = some (renderArtifact "," t) ∧
    lookupFile fs' (txtPathOf dir base) = some (renderArtifact "\t" t) := by
  obtain ⟨cns, dls, df, _, _, ht, _, _, _, hfs⟩ :=
    parse_written_inv env fs lines base dir t fs' h
  refine ⟨rfl, rfl, rfl, ?_, ?_, ?_⟩
  · intro rowCells hrc cell hcell c hc
    simp only [cellMatrix] at hrc
    rcases List.mem_cons.mp hrc with hhead | hrow
    · subst hhead
      have hcell3 := extract_headers_sub df cell (ht ▸ hcell)
      exact (by decide : ∀ nm ∈ (["frequency (Hz)", "Z_real (Ohm)",
        "Z_imag (Ohm)"] : List String), ∀ c2 ∈ nm.data,
          c2 ≠ ',' ∧ c2 ≠ '\t') cell hcell3 c hc
    · rcases List.mem_map.mp hrow with ⟨r, _, hre⟩
      subst hre
      rcases List.mem_map.mp hcell with ⟨v, _, hve⟩
      subst hve
      exact renderFloat_no_delim v c hc
  · subst hfs
    have hne : (txtPathOf dir base == csvPathOf dir base) = false := by
      rw [beq_eq_false_iff_ne]
      exact fun hh => csvPath_ne_txtPath dir base hh.symm
    simp [lookupFile, setFile, List.find?, hne]
  · subst hfs
    simp [lookupFile, setFile, List.find?]

/-- Witness for C8 at a written one-row member. -/
theorem claim_C8_witness :
    toCsvLines "," (ExtractedTable.mk
      ["frequency (Hz)", "Z_real (Ohm)", "Z_imag (Ohm)"]
      [[PyFloat.num 100, PyFloat.num 50, PyFloat.num (mkRat (-123) 1000000)]]) =
      (cellMatrix (ExtractedTable.mk
        ["frequency (Hz)", "Z_real (Ohm)", "Z_imag (Ohm)"]
        [[PyFloat.num 100, PyFloat.num 50,
          PyFloat.num (mkRat (-123) 1000000)]])).map
        (String.intercalate ",") ∧
    toCsvLines "\t" (ExtractedTable.mk
      ["frequency (Hz)", "Z_real (Ohm)", "Z_imag (Ohm)"]
      [[PyFloat.num 100, PyFloat.num 50, PyFloat.num (mkRat (-123) 1000000)]]) =
      (cellMatrix (ExtractedTable.mk
        ["frequency (Hz)", "Z_real (Ohm)", "Z_imag (Ohm)"]
        [[PyFloat.num 100, PyFloat.num 50,
          PyFloat.num (mkRat (-123) 1000000)]])).map
        (String.intercalate "\t") ∧
    cellMatrix (ExtractedTable.mk
      ["frequency (Hz)", "Z_real (Ohm)", "Z_imag (Ohm)"]
      [[PyFloat.num 100, PyFloat.num 50, PyFloat.num (mkRat (-123) 1000000)]]) =
      (ExtractedTable.mk
        ["frequency (Hz)", "Z_real (Ohm)", "Z_imag (Ohm)"]
        [[PyFloat.num 100, PyFloat.num 50,
          PyFloat.num (mkRat (-123) 1000000)]]).headers ::
      (ExtractedTable.mk
        ["frequency (Hz)", "Z_real (Ohm)", "Z_imag (Ohm)"]
        [[PyFloat.num 100, PyFloat.num 50,
          PyFloat.num (mkRat (-123) 1000000)]]).rows.map
        (fun r => r.map renderFloat) ∧
    (∀ rowCells ∈ cellMatrix (ExtractedTable.mk
        ["frequency (Hz)", "Z_real (Ohm)", "Z_imag (Ohm)"]
        [[PyFloat.num 100, PyFloat.num 50,
          PyFloat.num (mkRat (-123) 1000000)]]),
      ∀ cell ∈ rowCells, ∀ c ∈ cell.data, c ≠ ',' ∧ c ≠ '\t') ∧
    lookupFile
      [("out/b_extracted.txt",
        "frequency (Hz)\tZ_real (Ohm)\tZ_imag (Ohm)\n100\t50\t-123/1000000\n"),
       ("out/b_extracted.csv",
        "frequency (Hz),Z_real (Ohm),Z_imag (Ohm)\n100,50,-123/1000000\n")]
      (csvPathOf "out" "b") =
      some (renderArtifact "," (ExtractedTable.mk
        ["frequency (Hz)", "Z_real (Ohm)", "Z_imag (Ohm)"]
        [[PyFloat.num 100, PyFloat.num 50,
          PyFloat.num (mkRat (-123) 1000000)]])) ∧
    lookupFile
      [("out/b_extracted.txt",
        "frequency (Hz)\tZ_real (Ohm)\tZ_imag (Ohm)\n100\t50\t-123/1000000\n"),
       ("out/b_extracted.csv",
        "frequency (Hz),Z_real (Ohm),Z_imag (Ohm)\n100,50,-123/1000000\n")]
      (txtPathOf "out" "b") =
      some (renderArtifact "\t" (ExtractedTable.mk
        ["frequency (Hz)", "Z_real (Ohm)", "Z_imag (Ohm)"]
        [[PyFloat.num 100, PyFloat.num 50,
          PyFloat.num (mkRat (-123) 1000000)]])) :=
  claim_C8 (fun _ => false) []
    ["meta", freqColName ++ "  " ++ zRealColName ++ " " ++ zImagColName,
     "units", "End Header:", "100 50.0 -1.23e-4"] "b" "out"
    (ExtractedTable.mk ["frequency (Hz)", "Z_real (Ohm)", "Z_imag (Ohm)"]
      [[PyFloat.num 100, PyFloat.num 50, PyFloat.num (mkRat (-123) 1000000)]])
    [("out/b_extracted.txt",
      "frequency (Hz)\tZ_real (Ohm)\tZ_imag (Ohm)\n100\t50\t-123/1000000\n"),
     ("out/b_extracted.csv",
      "frequency (Hz),Z_real (Ohm),Z_imag (Ohm)\n100,50,-123/1000000\n")]
    (by decide)

/-- C10: the artifact pair is not written atomically — the CSV write comes
first, so when the TSV write raises `PermissionError` the member is reported
as failed even though the CSV artifact has already been created or
overwritten on disk; the TSV path is left exactly as it was. -/
theorem claim_C10 (env : String → Bool) (fs : FS) (lines : List String)
    (base dir : String) (cns dls : List String) (df : RawFrame)
    (hloc : locateTable lines = .ok cns dls)
    (hdf : readCsvWs cns dls = .frame df)
    (hne : (extractTable df).isEmptyTable = false)
    (hcsv : env (csvPathOf dir base) = false)
    (htxt : env (txtPathOf dir base) = true) :
    parse_ascii_content env fs lines base dir =
      (.failPermission,
        setFile fs (csvPathOf dir base)
          (renderArtifact "," (extractTable df))) ∧
    lookupFile (parse_ascii_content env fs lines base dir).2
      (csvPathOf dir base) =
      some (renderArtifact "," (extractTable df)) ∧
    lookupFile (parse_ascii_content env fs lines base dir).2
      (txtPathOf dir base) = lookupFile fs (txtPathOf dir base) := by
  have hmain : parse_ascii_content env fs lines base dir =
      (.failPermission, setFile fs (csvPathOf dir base)
        (renderArtifact "," (extractTable df))) := by
    unfold parse_ascii_content
    rw [hloc]
    simp [tableStage, hdf, hne, writeStage, hcsv, htxt]
  refine ⟨hmain, ?_, ?_⟩
  · rw [hmain]
    simp [lookupFile, setFile, List.find?]
  · rw [hmain]
    have hne2 : (csvPathOf dir base == txtPathOf dir base) = false := by
      rw [beq_eq_false_iff_ne]
      exact csvPath_ne_txtPath dir base
    simp [lookupFile, setFile, List.find?, hne2]

/-- Witness for C10: the TSV path is locked, the CSV write succeeds; the
member fails but the CSV artifact is on disk and the TSV path is untouched. -/
theorem claim_C10_witness :
    parse_ascii_content (fun p => p == txtPathOf "o" "b") []
      ["m", freqColName ++ " " ++ zRealColName ++ " " ++ zImagColName,
       "u", "End Header:", "1 2 3"] "b" "o" =
      (.failPermission,
        setFile [] (csvPathOf "o" "b")
          (renderArtifact ","
            (extractTable ⟨reSplitWs (pyStrip (freqColName ++ " " ++
              zRealColName ++ " " ++ zImagColName)),
              [[some "1", some "2", some "3"]]⟩))) ∧
    lookupFile (parse_ascii_content (fun p => p == txtPathOf "o" "b") []
      ["m", freqColName ++ " " ++ zRealColName ++ " " ++ zImagColName,
       "u", "End Header:", "1 2 3"] "b" "o").2 (csvPathOf "o" "b") =
      some (renderArtifact ","
        (extractTable ⟨reSplitWs (pyStrip (freqColName ++ " " ++
          zRealColName ++ " " ++ zImagColName)),
          [[some "1", some "2", some "3"]]⟩)) ∧
    lookupFile (parse_ascii_content (fun p => p == txtPathOf "o" "b") []
      ["m", freqColName ++ " " ++ zRealColName ++ " " ++ zImagColName,
       "u", "End Header:", "1 2 3"] "b" "o").2 (txtPathOf "o" "b") =
      lookupFile [] (txtPathOf "o" "b") :=
  claim_C10 (fun p => p == txtPathOf "o" "b") []
    ["m", freqColName ++ " " ++ zRealColName ++ " " ++ zImagColName,
     "u", "End Header:", "1 2 3"] "b" "o"
    (reSplitWs (pyStrip (freqColName ++ " " ++ zRealColName ++ " " ++
      zImagColName))) ["1 2 3"]
    ⟨reSplitWs (pyStrip (freqColName ++ " " ++ zRealColName ++ " " ++
      zImagColName)), [[some "1", some "2", some "3"]]⟩
    (by decide) (by decide) (by decide) (by decide) (by decide)

/-- The outcome component of a member's parse does not depend on the prior
state of the output directory — only the written files do. -/
theorem parse_fst_indep (env : String → Bool) (fs fs2 : FS)
    (lines : List String) (base dir : String) :
    (parse_ascii_content env fs lines base dir).1 =
    (parse_ascii_content env fs2 lines base dir).1 := by
  unfold parse_ascii_content tableStage writeStage
  split
  · rfl
  · split
    · rfl
    · split
      · rfl
      · split
        · rfl
        · split
          · rfl
          · rfl

/-- The member loop's reports are the per-member reports, one per AC member,
independent of the threaded directory state. -/
theorem processMembers_fst (env : String → Bool) (outDir mdatBase : String)
    (es : List ZEntry) : ∀ fs : FS,
    (processMembers env outDir mdatBase es fs).1 =
      es.map (memberReport env outDir mdatBase) := by
  induction es with
  | nil =>
    intro fs
    rfl
  | cons e es2 ih =>
    intro fs
    simp only [processMembers, List.map_cons]
    congr 1
    · rw [memberReport]
      exact parse_fst_indep env fs [] e.textLines
        (deriveOutputBase mdatBase e.name) outDir
    · exact ih _

/-- An archive's report is a function of that archive alone. -/
theorem process_mdat_file_fst (env : String → Bool) (outDir path : String)
    (a : ArchiveInput) (fs : FS) :
    (process_mdat_file env outDir path a fs).1 =
      archiveReport env outDir (path, a) := by
  cases a with
  | notZip => rfl
  | corrupt => rfl
  | zipOk entries =>
    simp only [process_mdat_file, archiveReport]
    by_cases hac : (entries.filter (fun e => isAcFileName e.name)).isEmpty = true
    · rw [if_pos hac, if_pos hac]
    · rw [if_neg hac, if_neg hac]
      rw [processMembers_fst]

/-- C5: the batch loop yields exactly one report per discovered archive, and
each archive's report — including the per-member results inside a
`processed` report — is a function of that archive alone: no failure
(corrupt ZIP, parse failure, write failure, ...) of one unit can change or
suppress the processing of any other unit, because every failure is caught
at member or archive scope and becomes a report constructor. -/
theorem claim_C5 (env : String → Bool) (outDir : String)
    (archs : List (String × ArchiveInput)) (fs : FS) :
    (runBatch env outDir archs fs).1 =
      archs.map (archiveReport env outDir) ∧
    (runBatch env outDir archs fs).1.length = archs.length ∧
    ∀ mdatBase es fs2,
      (processMembers env outDir mdatBase es fs2).1 =
        es.map (memberReport env outDir mdatBase) := by
  have hmain : ∀ (ar : List (String × ArchiveInput)) (fs2 : FS),
      (runBatch env outDir ar fs2).1 = ar.map (archiveReport env outDir) := by
    intro ar
    induction ar with
    | nil =>
      intro fs2
      rfl
    | cons a rest ih =>
      intro fs2
      simp only [runBatch, List.map_cons]
      congr 1
      · rw [process_mdat_file_fst]
      · exact ih _
  refine ⟨hmain archs fs, ?_, ?_⟩
  · rw [hmain archs fs, List.length_map]
  · intro mdatBase es fs2
    exact processMembers_fst env outDir mdatBase es fs2

/-- `matchRunAt` only succeeds on a genuine `RunNN` prefix, and returns
exactly that prefix. -/
theorem matchRunAt_sound (cs m : List Char) (h : matchRunAt cs = some m) :
    ∃ rest, cs = m ++ rest ∧ runTokenShape m := by
  rcases cs with _ | ⟨r, _ | ⟨u, _ | ⟨n, rest⟩⟩⟩
  · simp [matchRunAt] at h
  · simp [matchRunAt] at h
  · simp [matchRunAt] at h
  · rw [matchRunAt] at h
    by_cases hl : (r.toLower == 'r' && u.toLower == 'u' && n.toLower == 'n') = true
    · rw [if_pos hl] at h
      by_cases hd : (rest.takeWhile Char.isDigit).isEmpty = true
      · rw [if_pos hd] at h
        exact absurd h (by simp)
      · rw [if_neg hd] at h
        have hm : m = r :: u :: n :: rest.takeWhile Char.isDigit :=
          (Option.some.inj h).symm
        refine ⟨rest.dropWhile Char.isDigit, ?_, ?_⟩
        · rw [hm]
          simp [List.takeWhile_append_dropWhile]
        · simp only [Bool.and_eq_true, beq_iff_eq] at hl
          refine ⟨r, u, n, rest.takeWhile Char.isDigit, hm, hl.1.1, hl.1.2,
            hl.2, ?_, ?_⟩
          · intro hnil
            rw [hnil] at hd
            exact hd rfl
          · intro c hc
            exact List.mem_takeWhile_imp hc
    · rw [if_neg hl] at h
      exact absurd h (by simp)

/-- Soundness of the leftmost search: a returned token occurs in the input
and has the `RunNN` shape. -/
theorem searchRunGo_sound (cs : List Char) : ∀ m : List Char,
    searchRunGo cs = some m →
    ∃ pre post, cs = pre ++ m ++ post ∧ runTokenShape m := by
  induction cs with
  | nil =>
    intro m h
    simp [searchRunGo] at h
  | cons c cs2 ih =>
    intro m h
    rw [searchRunGo] at h
    cases hm : matchRunAt (c :: cs2) with
    | some m2 =>
      rw [hm] at h
      have hm2 : m = m2 := (Option.some.inj h).symm
      subst hm2
      obtain ⟨rest, hcs, hsh⟩ := matchRunAt_sound _ _ hm
      exact ⟨[], rest, by simpa using hcs, hsh⟩
    | none =>
      rw [hm] at h
      obtain ⟨pre, post, hcs, hsh⟩ := ih m h
      exact ⟨c :: pre, post, by simp [hcs], hsh⟩

/-- C9: output base-name derivation — `Run01/ac.z` in archive `sample.mdat`
gives `sample-Run01`; `data/ac.z` gives `data_ac` whatever the archive; a
returned match is a genuine case-insensitive `Run`+digits substring of the
member path; and when no such pattern occurs the base name is the member
path with `/` replaced by `_` and the final extension stripped. -/
theorem claim_C9 :
    deriveOutputBase "sample" "Run01/ac.z" = "sample-Run01" ∧
    (∀ mdatBase : String, deriveOutputBase mdatBase "data/ac.z" = "data_ac") ∧
    (∀ sub tok : String, searchRun sub = some tok →
      (∃ pre post, sub.data = pre ++ tok.data ++ post ∧
        runTokenShape tok.data) ∧
      ∀ mdatBase : String,
        deriveOutputBase mdatBase sub = mdatBase ++ "-" ++ tok) ∧
    ∀ mdatBase sub : String, searchRun sub = none →
      deriveOutputBase mdatBase sub = splitextStem (replaceSlashes sub) := by
  refine ⟨by decide, ?_, ?_, ?_⟩
  · intro mdatBase
    simp only [deriveOutputBase,
      (by decide : searchRun "data/ac.z" = none)]
    decide
  · intro sub tok h
    constructor
    · unfold searchRun at h
      cases hg : searchRunGo sub.data with
      | none =>
        rw [hg] at h
        exact absurd h (by simp)
      | some m =>
        rw [hg] at h
        have htok : String.mk m = tok := Option.some.inj (by simpa using h)
        obtain ⟨pre, post, hcs, hsh⟩ := searchRunGo_sound sub.data m hg
        refine ⟨pre, post, ?_, ?_⟩
        · rw [← htok]
          exact hcs
        · rw [← htok]
          exact hsh
    · intro mdatBase
      simp only [deriveOutputBase, h]
  · intro mdatBase sub h
    simp only [deriveOutputBase, h]

/-- Witness for C9 at a member path with an internal mixed-case run match. -/
theorem claim_C9_witness :
    (∃ pre post, ("xxRun42yy" : String).data =
      pre ++ ("Run42" : String).data ++ post ∧
      runTokenShape ("Run42" : String).data) ∧
    ∀ mdatBase : String,
      deriveOutputBase mdatBase "xxRun42yy" = mdatBase ++ "-" ++ "Run42" :=
  claim_C9.2.2.1 "xxRun42yy" "Run42" (by decide)

end Mdat
